import Mathlib

/-!
# Verification of the TCP chat server (`TCP_Server_Client.py`)

A shallow embedding of the server side of the chat program.  Python strings
are represented by their UTF-8 byte sequences (`List Nat`, each element a
byte value); the wire stream is likewise a `List Nat`.  `reader.read n`
returns at most `n` bytes (all remaining bytes when fewer are available, or
when `n` is negative, as Python does); `struct.unpack` fails unless it gets
exactly the bytes its format needs.  A Python function that can raise an
exception is embedded as an `Option`-valued function, `none` marking the
raised exception.
-/

/-- A Python `str`, represented by its UTF-8 byte sequence. -/
abbrev PyStr := List Nat

/-- `struct.pack('<i', n)` for `0 ≤ n < 2^31`: four little-endian bytes.
(For larger `n` Python raises; all uses below are guarded by that bound.) -/
def int32Bytes (n : Nat) : List Nat :=
  [n % 256, n / 256 % 256, n / 65536 % 256, n / 16777216 % 256]

/-- `struct.unpack('<i', bytes)`: little-endian signed 32-bit decode. -/
def decodeI32 (b0 b1 b2 b3 : Nat) : Int :=
  let u := b0 + 256 * b1 + 65536 * b2 + 16777216 * b3
  if u < 2147483648 then (u : Int) else (u : Int) - 4294967296

/-- `reader.read(n)`: returns up to `n` bytes and the rest of the stream;
a negative `n` reads everything (Python semantics). -/
def pyRead (s : List Nat) (n : Int) : List Nat × List Nat :=
  if n < 0 then (s, []) else (s.take n.toNat, s.drop n.toNat)

/-- `recv_single_value(reader, '<i')`: read four bytes and unpack; raises
(`none`) when fewer than four bytes remain. -/
def recvInt32 (s : List Nat) : Option (Int × List Nat) :=
  match s with
  | b0 :: b1 :: b2 :: b3 :: rest => some (decodeI32 b0 b1 b2 b3, rest)
  | _ => none

/-- `recv_str(reader)`: read an `Int32` length then that many bytes.
Note the body read itself cannot raise: `reader.read` just returns the
remaining bytes, so only the length read can fail. -/
def recv_str (s : List Nat) : Option (PyStr × List Nat) :=
  match recvInt32 s with
  | none => none
  | some (len, rest) => some (pyRead rest len)

/-- Run a decoder `n` times, collecting results (the `for i in range(n)`
loops of `recv_str_list` / `recv_list_of_lists`). -/
def recvN {α : Type} (f : List Nat → Option (α × List Nat)) :
    Nat → List Nat → Option (List α × List Nat)
  | 0, s => some ([], s)
  | n + 1, s =>
    match f s with
    | none => none
    | some (a, s1) =>
      match recvN f n s1 with
      | none => none
      | some (as, s2) => some (a :: as, s2)

/-- `recv_str_list(reader)`: an `Int32` count then that many strings.
A negative count makes `range(length)` empty, hence `Int.toNat`. -/
def recv_str_list (s : List Nat) : Option (List PyStr × List Nat) :=
  match recvInt32 s with
  | none => none
  | some (len, rest) => recvN recv_str len.toNat rest

/-- `recv_list_of_lists(reader)`: an `Int32` count then that many string
lists. -/
def recv_list_of_lists (s : List Nat) : Option (List (List PyStr) × List Nat) :=
  match recvInt32 s with
  | none => none
  | some (len, rest) => recvN recv_str_list len.toNat rest

/-- `send_str(writer, string)`: length-prefixed byte encoding of a string. -/
def send_str (string : PyStr) : List Nat :=
  int32Bytes string.length ++ string

/-- `send_str_list(writer, strings)`: count then each string. -/
def send_str_list (strings : List PyStr) : List Nat :=
  int32Bytes strings.length ++ (strings.map send_str).flatten

/-- `send_list_of_lists(writer, messages)`: count then each string list. -/
def send_list_of_lists (messages : List (List PyStr)) : List Nat :=
  int32Bytes messages.length ++ (messages.map send_str_list).flatten

/-! ## Codec round-trip lemmas -/

theorem recvInt32_int32Bytes (n : Nat) (h : n < 2147483648) (rest : List Nat) :
    recvInt32 (int32Bytes n ++ rest) = some ((n : Int), rest) := by
  have hu : n % 256 + 256 * (n / 256 % 256) + 65536 * (n / 65536 % 256) +
      16777216 * (n / 16777216 % 256) = n := by omega
  simp only [int32Bytes, List.cons_append, List.nil_append, recvInt32, decodeI32, hu,
    if_pos h]

theorem recv_str_send_str (x : PyStr) (h : x.length < 2147483648)
    (rest : List Nat) : recv_str (send_str x ++ rest) = some (x, rest) := by
  simp only [recv_str, send_str, List.append_assoc, recvInt32_int32Bytes x.length h,
    pyRead]
  rw [if_neg (by omega)]
  simp [Int.toNat_natCast, List.take_left, List.drop_left]

theorem recvN_roundtrip {α : Type} (f : List Nat → Option (α × List Nat))
    (enc : α → List Nat) (l : List α) (rest : List Nat)
    (h : ∀ x ∈ l, ∀ r, f (enc x ++ r) = some (x, r)) :
    recvN f l.length ((l.map enc).flatten ++ rest) = some (l, rest) := by
  induction l with
  | nil => simp [recvN]
  | cons a t ih =>
    have h1 := h a (List.mem_cons_self a t)
    have h2 := ih (fun x hx r => h x (List.mem_cons_of_mem a hx) r)
    simp [recvN, List.append_assoc, h1, h2]

theorem recv_str_list_send_str_list (ws : List PyStr)
    (hw : ∀ w ∈ ws, w.length < 2147483648) (hl : ws.length < 2147483648)
    (rest : List Nat) :
    recv_str_list (send_str_list ws ++ rest) = some (ws, rest) := by
  simp only [recv_str_list, send_str_list, List.append_assoc,
    recvInt32_int32Bytes ws.length hl, Int.toNat_natCast]
  exact recvN_roundtrip recv_str send_str ws rest
    (fun x hx r => recv_str_send_str x (hw x hx) r)

theorem recv_list_of_lists_send_list_of_lists (ll : List (List PyStr))
    (hw : ∀ l ∈ ll, (∀ w ∈ l, w.length < 2147483648) ∧ l.length < 2147483648)
    (hl : ll.length < 2147483648) (rest : List Nat) :
    recv_list_of_lists (send_list_of_lists ll ++ rest) = some (ll, rest) := by
  simp only [recv_list_of_lists, send_list_of_lists, List.append_assoc,
    recvInt32_int32Bytes ll.length hl, Int.toNat_natCast]
  exact recvN_roundtrip recv_str_list send_str_list ll rest
    (fun x hx r => recv_str_list_send_str_list x (fun w hwx => (hw x hx).1 w hwx)
      (hw x hx).2 r)

/-! ## Server state

`TCPServerClient` holds `self.messages` (the bounded history) and
`self.people` (the username → writer dict).  Dicts are embedded as
insertion-ordered association lists.  Frames written to any client are
recorded in an output trace `out`, tagged with the writer's identifier. -/

/-- One frame written by the server to some client. -/
inductive Frame : Type
  | bool (b : Bool)
  | strList (l : List PyStr)
  | listOfLists (l : List (List PyStr))
deriving Repr, DecidableEq

/-- The shared state of `TCPServerClient`, plus the trace of writes. -/
structure ServerState : Type where
  messages : List (List PyStr)
  people : List (PyStr × Nat)
  out : List (Nat × Frame)
deriving Repr, DecidableEq

/-- `d.keys()` of the embedded dict. -/
def keys (d : List (PyStr × Nat)) : List PyStr := d.map Prod.fst

/-- Python `d[k] = v`: replace in place when the key exists, else append. -/
def dictAssign (d : List (PyStr × Nat)) (k : PyStr) (v : Nat) :
    List (PyStr × Nat) :=
  if k ∈ keys d then d.map (fun p => if p.1 = k then (k, v) else p)
  else d ++ [(k, v)]

/-- Python `del d[k]`: removes the entry when the key exists, raises
`KeyError` (`none`) otherwise. -/
def pyDictDel (d : List (PyStr × Nat)) (k : PyStr) :
    Option (List (PyStr × Nat)) :=
  if k ∈ keys d then some (d.filter (fun p => decide (p.1 ≠ k))) else none

/-- `add_to_recent_messages(self, message_list)`: pop the oldest entry when
the buffer holds ten, then append. -/
def add_to_recent_messages (messages : List (List PyStr))
    (message_list : List PyStr) : List (List PyStr) :=
  (if messages.length = 10 then messages.drop 1 else messages) ++ [message_list]

/-- The history after feeding a whole sequence of messages through
`add_to_recent_messages`, starting from the empty buffer. -/
def historyAfter (ms : List (List PyStr)) : List (List PyStr) :=
  ms.foldl add_to_recent_messages []

/-- `send_messages_to_all(self, message)`: write the message, as a string
list, to every writer in `self.people`. -/
def send_messages_to_all (st : ServerState) (message : List PyStr) :
    ServerState :=
  { st with out := st.out ++ st.people.map (fun p => (p.2, Frame.strList message)) }

/-- `new_connection(self, writer, username)`: record the writer under the
username, then send the recent-messages list to it. -/
def new_connection (st : ServerState) (wid : Nat) (username : PyStr) :
    ServerState :=
  let st1 : ServerState := { st with people := dictAssign st.people username wid }
  { st1 with out := st1.out ++ [(wid, Frame.listOfLists st1.messages)] }

/-- `valid_username` is either Python `False` (`none`) or a string.
`truthy` is Python truthiness: `False` and `''` are falsy. -/
def truthy : Option PyStr → Bool
  | none => false
  | some s => !s.isEmpty

/-- `server_get_username_validation(self, reader, writer)`: receive the
username; if fresh, reply `True` and set up the connection, returning the
username; otherwise reply `False` and return Python `False`.  `none` is an
uncaught exception from the username read. -/
def server_get_username_validation (st : ServerState) (wid : Nat)
    (s : List Nat) : Option (Option PyStr × ServerState × List Nat) :=
  match recv_str s with
  | none => none
  | some (username, rest) =>
    if username ∈ keys st.people then
      some (none, { st with out := st.out ++ [(wid, Frame.bool false)] }, rest)
    else
      some (some username,
        new_connection { st with out := st.out ++ [(wid, Frame.bool true)] }
          wid username, rest)

/-- `server_receive_messages(self, reader, writer, valid_username)`: try to
receive a string; on failure delete the username's entry and return Python
`False`.  The outer `none` is the `KeyError` raised when `del` finds the key
absent. -/
def server_receive_messages (st : ServerState) (valid_username : PyStr)
    (s : List Nat) : Option (Option PyStr × ServerState × List Nat) :=
  match recv_str s with
  | some (m, rest) => some (some m, st, rest)
  | none =>
    match pyDictDel st.people valid_username with
    | none => none
    | some people2 => some (none, { st with people := people2 }, s)

/-- The outcome of one iteration of the `while True` loop of
`server_handle_clients`: the loop continues, breaks (followed by
`drain`/`close`), or an exception propagates out of the handler. -/
inductive StepRes : Type
  | cont (v : Option PyStr) (st : ServerState) (s : List Nat)
  | closed (v : Option PyStr) (st : ServerState)
  | crashed (st : ServerState)
deriving Repr, DecidableEq

/-- The server state carried by a step outcome. -/
def stateOfRes : StepRes → ServerState
  | StepRes.cont _ st _ => st
  | StepRes.closed _ st => st
  | StepRes.crashed st => st

/-- The second half of the `server_handle_clients` loop body: the
`if valid_username: ... else: break` part, run after the opcode read and the
(possible) registration attempt have produced `valid_username = v1`,
state `st1` and unread input `s1`. -/
def serverStepBody (ts : PyStr) (data : Int) (v1 : Option PyStr)
    (st1 : ServerState) (s1 : List Nat) : StepRes :=
  if truthy v1 then
    if data = 2 then
      match v1 with
      | none => StepRes.closed v1 st1
      | some u =>
        match server_receive_messages st1 u s1 with
        | none => StepRes.crashed st1
        | some (none, st2, _) => StepRes.closed v1 st2
        | some (some m, st2, s2) =>
          let msgs := add_to_recent_messages st2.messages [ts, u, m]
          match msgs.getLast? with
          | none => StepRes.crashed st2
          | some last =>
            StepRes.cont v1
              (send_messages_to_all { st2 with messages := msgs } last) s2
    else StepRes.cont v1 st1 s1
  else StepRes.closed v1 st1

/-- One iteration of the `server_handle_clients` loop body, for the session
whose writer is `wid`, with `ts` the value `time.strftime('%X')` returns at
this iteration, `v` the current `valid_username`, and `s` the unread input. -/
def serverStep (wid : Nat) (ts : PyStr) (v : Option PyStr) (st : ServerState)
    (s : List Nat) : StepRes :=
  match recvInt32 s with
  | none => StepRes.crashed st
  | some (data, rest) =>
    match (if data = 1 ∧ truthy v = false then
            server_get_username_validation st wid rest
          else some (v, st, rest)) with
    | none => StepRes.crashed st
    | some (v1, st1, s1) => serverStepBody ts data v1 st1 s1

/-! ## History lemmas -/

theorem historyAfter_append (ms : List (List PyStr)) (m : List PyStr) :
    historyAfter (ms ++ [m]) = add_to_recent_messages (historyAfter ms) m := by
  simp [historyAfter, List.foldl_append]

theorem historyAfter_eq_drop (ms : List (List PyStr)) :
    historyAfter ms = ms.drop (ms.length - 10) := by
  induction ms using List.reverseRecOn with
  | nil => simp [historyAfter]
  | append_singleton ms m ih =>
    rw [historyAfter_append, ih, add_to_recent_messages]
    rcases le_or_lt ms.length 9 with hle | hlt
    · have h0 : ms.length - 10 = 0 := by omega
      have h1 : (ms ++ [m]).length - 10 = 0 := by
        simp only [List.length_append, List.length_singleton]; omega
      rw [h0, List.drop_zero, if_neg (by omega), h1, List.drop_zero]
    · have hlen : (ms.drop (ms.length - 10)).length = 10 := by
        rw [List.length_drop]; omega
      have h1 : (ms ++ [m]).length - 10 = ms.length - 9 := by
        simp only [List.length_append, List.length_singleton]; omega
      rw [if_pos hlen, List.drop_drop, h1,
        List.drop_append_of_le_length (by omega)]
      have h2 : ms.length - 10 + 1 = ms.length - 9 := by omega
      rw [h2]

theorem historyAfter_length (ms : List (List PyStr)) :
    (historyAfter ms).length = min ms.length 10 := by
  rw [historyAfter_eq_drop, List.length_drop]; omega

/-! ## Dict lemmas -/

theorem keys_dictAssign (d : List (PyStr × Nat)) (k : PyStr) (v : Nat) :
    keys (dictAssign d k v) = if k ∈ keys d then keys d else keys d ++ [k] := by
  by_cases h : k ∈ keys d
  · rw [dictAssign, if_pos h, if_pos h]
    unfold keys
    rw [List.map_map]
    have hf : (Prod.fst ∘ fun p : PyStr × Nat => if p.1 = k then (k, v) else p)
        = Prod.fst := by
      funext p; dsimp only [Function.comp_apply]; split <;> simp_all
    rw [hf]
  · rw [dictAssign, if_neg h, if_neg h]
    unfold keys
    simp

theorem mem_keys_dictAssign (d : List (PyStr × Nat)) (k0 k : PyStr) (v : Nat)
    (h : k0 ∈ keys d) : k0 ∈ keys (dictAssign d k v) := by
  rw [keys_dictAssign]
  split
  · exact h
  · exact List.mem_append_left _ h

theorem mem_keys_filter_of_ne (d : List (PyStr × Nat)) (k u : PyStr)
    (hk : k ∈ keys d) (hne : k ≠ u) :
    k ∈ keys (d.filter (fun p => decide (p.1 ≠ u))) := by
  simp only [keys, List.mem_map] at hk ⊢
  obtain ⟨p, hp, hpk⟩ := hk
  refine ⟨p, List.mem_filter.2 ⟨hp, ?_⟩, hpk⟩
  simp [hpk, hne]

/-! ## Session-step path lemmas -/

theorem recvInt32_eq_none (s : List Nat) (h : s.length < 4) :
    recvInt32 s = none := by
  match s with
  | [] => rfl
  | [_] => rfl
  | [_, _] => rfl
  | [_, _, _] => rfl
  | _ :: _ :: _ :: _ :: _ => simp only [List.length_cons] at h; omega

theorem serverStep_shortInput (wid : Nat) (ts : PyStr) (v : Option PyStr)
    (st : ServerState) (s : List Nat) (h : s.length < 4) :
    serverStep wid ts v st s = StepRes.crashed st := by
  unfold serverStep
  rw [recvInt32_eq_none s h]

/-- The state after a successful registration of `u` on writer `wid`. -/
def regState (wid : Nat) (st : ServerState) (u : PyStr) : ServerState :=
  ⟨st.messages, st.people ++ [(u, wid)],
    st.out ++ [(wid, Frame.bool true), (wid, Frame.listOfLists st.messages)]⟩

theorem serverStep_register_fresh (wid : Nat) (ts u : PyStr) (st : ServerState)
    (rest : List Nat) (hfresh : u ∉ keys st.people)
    (hlen : u.length < 2147483648) :
    serverStep wid ts none st (int32Bytes 1 ++ send_str u ++ rest) =
      if u = [] then StepRes.closed (some u) (regState wid st u)
      else StepRes.cont (some u) (regState wid st u) rest := by
  have h1 := recvInt32_int32Bytes 1 (by norm_num) (send_str u ++ rest)
  have h2 := recv_str_send_str u hlen rest
  unfold serverStep
  rw [List.append_assoc, h1]
  dsimp only
  rw [if_pos ⟨rfl, rfl⟩]
  unfold server_get_username_validation
  rw [h2]
  dsimp only
  rw [if_neg hfresh]
  dsimp only
  have hst1 : new_connection
      { st with out := st.out ++ [(wid, Frame.bool true)] } wid u
      = regState wid st u := by
    unfold new_connection regState dictAssign
    rw [if_neg hfresh]
    simp
  rw [hst1]
  unfold serverStepBody
  by_cases hu : u = []
  · subst hu
    rw [if_neg (by simp [truthy]), if_pos rfl]
  · have htr : truthy (some u) = true := by
      match u, hu with
      | _ :: _, _ => rfl
    rw [if_pos htr, if_neg (by norm_num), if_neg hu]

theorem serverStep_register_dup (wid : Nat) (ts u : PyStr) (st : ServerState)
    (rest : List Nat) (hdup : u ∈ keys st.people)
    (hlen : u.length < 2147483648) :
    serverStep wid ts none st (int32Bytes 1 ++ send_str u ++ rest) =
      StepRes.closed none
        { st with out := st.out ++ [(wid, Frame.bool false)] } := by
  have h1 := recvInt32_int32Bytes 1 (by norm_num) (send_str u ++ rest)
  have h2 := recv_str_send_str u hlen rest
  unfold serverStep
  rw [List.append_assoc, h1]
  dsimp only
  rw [if_pos ⟨rfl, rfl⟩]
  unfold server_get_username_validation
  rw [h2]
  dsimp only
  rw [if_pos hdup]
  dsimp only
  unfold serverStepBody
  rw [if_neg (by simp [truthy])]

theorem serverStep_send (wid : Nat) (ts u body : PyStr) (st : ServerState)
    (rest : List Nat) (hu : u ≠ []) (hb : body.length < 2147483648) :
    serverStep wid ts (some u) st (int32Bytes 2 ++ send_str body ++ rest) =
      StepRes.cont (some u)
        ⟨add_to_recent_messages st.messages [ts, u, body], st.people,
          st.out ++ st.people.map (fun p => (p.2, Frame.strList [ts, u, body]))⟩
        rest := by
  have h1 := recvInt32_int32Bytes 2 (by norm_num) (send_str body ++ rest)
  have h2 := recv_str_send_str body hb rest
  have htr : truthy (some u) = true := by
    match u, hu with
    | _ :: _, _ => rfl
  unfold serverStep
  rw [List.append_assoc, h1]
  dsimp only
  rw [if_neg (by rintro ⟨hx, -⟩; norm_num at hx)]
  dsimp only
  unfold serverStepBody
  rw [if_pos htr, if_pos (show ((2:Nat):Int) = 2 by norm_num)]
  unfold server_receive_messages
  rw [h2]
  dsimp only
  have hlast : (add_to_recent_messages st.messages [ts, u, body]).getLast?
      = some [ts, u, body] := by
    unfold add_to_recent_messages
    exact List.getLast?_concat _
  rw [hlast]
  dsimp only
  unfold send_messages_to_all
  rfl

theorem serverStep_notRegistered_close (wid : Nat) (ts : PyStr)
    (v : Option PyStr) (st : ServerState) (d : Nat) (rest : List Nat)
    (hv : truthy v = false) (hd : d ≠ 1) (hlt : d < 2147483648) :
    serverStep wid ts v st (int32Bytes d ++ rest) = StepRes.closed v st := by
  have h1 := recvInt32_int32Bytes d hlt rest
  unfold serverStep
  rw [h1]
  dsimp only
  rw [if_neg (by rintro ⟨hx, -⟩; exact hd (by exact_mod_cast hx))]
  dsimp only
  unfold serverStepBody
  rw [if_neg (by simp [hv])]

theorem serverStep_registered_ignore (wid : Nat) (ts u : PyStr)
    (st : ServerState) (d : Nat) (rest : List Nat)
    (hu : u ≠ []) (hd : d ≠ 2) (hlt : d < 2147483648) :
    serverStep wid ts (some u) st (int32Bytes d ++ rest)
      = StepRes.cont (some u) st rest := by
  have h1 := recvInt32_int32Bytes d hlt rest
  have htr : truthy (some u) = true := by
    match u, hu with
    | _ :: _, _ => rfl
  unfold serverStep
  rw [h1]
  dsimp only
  rw [if_neg (by rintro ⟨-, hx⟩; rw [htr] at hx; cases hx)]
  dsimp only
  unfold serverStepBody
  rw [if_pos htr, if_neg (by intro hx; exact hd (by exact_mod_cast hx))]

/-! ## Persistence of the empty-string registry key -/

theorem val_people_cases (st : ServerState) (wid : Nat) (s : List Nat)
    (v1 : Option PyStr) (st1 : ServerState) (s1 : List Nat)
    (h : server_get_username_validation st wid s = some (v1, st1, s1)) :
    st1.people = st.people ∨ ∃ u, st1.people = dictAssign st.people u wid := by
  unfold server_get_username_validation at h
  cases hrs : recv_str s with
  | none => rw [hrs] at h; cases h
  | some p =>
    obtain ⟨username, rest⟩ := p
    rw [hrs] at h
    dsimp only at h
    by_cases hdup : username ∈ keys st.people
    · rw [if_pos hdup] at h
      cases h
      exact Or.inl rfl
    · rw [if_neg hdup] at h
      cases h
      exact Or.inr ⟨username, rfl⟩

theorem recvmsg_people_cases (st : ServerState) (u : PyStr) (s : List Nat)
    (r : Option PyStr) (st2 : ServerState) (s2 : List Nat)
    (h : server_receive_messages st u s = some (r, st2, s2)) :
    st2.people = st.people ∨
      st2.people = st.people.filter (fun p => decide (p.1 ≠ u)) := by
  unfold server_receive_messages at h
  cases hrs : recv_str s with
  | some p =>
    obtain ⟨m, rest⟩ := p
    rw [hrs] at h
    cases h
    exact Or.inl rfl
  | none =>
    rw [hrs] at h
    unfold pyDictDel at h
    by_cases hmem : u ∈ keys st.people
    · rw [if_pos hmem] at h
      cases h
      exact Or.inr rfl
    · rw [if_neg hmem] at h
      cases h

theorem serverStepBody_preserves_emptyKey (ts : PyStr) (data : Int)
    (v1 : Option PyStr) (st1 : ServerState) (s1 : List Nat)
    (hk : ([] : PyStr) ∈ keys st1.people) :
    ([] : PyStr) ∈ keys (stateOfRes (serverStepBody ts data v1 st1 s1)).people := by
  cases v1 with
  | none => simpa [serverStepBody, truthy, stateOfRes]
  | some u =>
    match u with
    | [] => simpa [serverStepBody, truthy, stateOfRes]
    | a :: t =>
      have htr : truthy (some (a :: t)) = true := rfl
      unfold serverStepBody
      rw [if_pos htr]
      by_cases hd : data = 2
      · rw [if_pos hd]
        dsimp only
        cases hm : server_receive_messages st1 (a :: t) s1 with
        | none => simpa [stateOfRes]
        | some q =>
          obtain ⟨r, st2, s2⟩ := q
          have hpeople : ([] : PyStr) ∈ keys st2.people := by
            rcases recvmsg_people_cases st1 (a :: t) s1 r st2 s2 hm with hsame | hfil
            · rwa [hsame]
            · rw [hfil]
              exact mem_keys_filter_of_ne _ _ _ hk (by simp)
          cases r with
          | none => simpa [stateOfRes]
          | some m =>
            dsimp only
            cases hlast : (add_to_recent_messages st2.messages
                [ts, a :: t, m]).getLast? with
            | none => simpa [stateOfRes]
            | some last => simpa [stateOfRes, send_messages_to_all]
      · rw [if_neg hd]
        simpa [stateOfRes]

theorem serverStep_preserves_emptyKey (wid : Nat) (ts : PyStr)
    (v : Option PyStr) (st : ServerState) (s : List Nat)
    (hk : ([] : PyStr) ∈ keys st.people) :
    ([] : PyStr) ∈ keys (stateOfRes (serverStep wid ts v st s)).people := by
  unfold serverStep
  cases hr : recvInt32 s with
  | none => simpa [stateOfRes]
  | some p =>
    obtain ⟨data, rest⟩ := p
    dsimp only
    by_cases hreg : data = 1 ∧ truthy v = false
    · rw [if_pos hreg]
      cases hval : server_get_username_validation st wid rest with
      | none => simpa [stateOfRes]
      | some q =>
        obtain ⟨v1, st1, s1⟩ := q
        have hst1 : ([] : PyStr) ∈ keys st1.people := by
          rcases val_people_cases st wid rest v1 st1 s1 hval with hsame | ⟨u, hass⟩
          · rwa [hsame]
          · rw [hass]
            exact mem_keys_dictAssign _ _ _ _ hk
        exact serverStepBody_preserves_emptyKey ts data v1 st1 s1 hst1
    · rw [if_neg hreg]
      exact serverStepBody_preserves_emptyKey ts data v st rest hk

/-! ## Claims -/

/-- Claim C1 (refuted by the code; the spec states the intent): a read
failure while reading the opcode integer — end-of-stream (`s = []`) or a
truncated frame (fewer than four bytes) — in a `Registered` session
propagates an uncaught exception out of `server_handle_clients` and leaves
the server state, in particular `self.people`, unchanged: the username is
NOT unregistered, contrary to the claim that any read failure frees it.
Only a failure inside `server_receive_messages` (the message-body read) is
caught and unregisters. -/
theorem C1_opcode_read_failure_keeps_registration (wid : Nat) (ts u : PyStr)
    (st : ServerState) (s : List Nat) (h : s.length < 4) :
    serverStep wid ts (some u) st s = StepRes.crashed st
      ∧ keys (stateOfRes (serverStep wid ts (some u) st s)).people
          = keys st.people := by
  have hs := serverStep_shortInput wid ts (some u) st s h
  refine ⟨hs, ?_⟩
  rw [hs]
  rfl

/-- Witness for C1: the registered user `"a"` ([97]) whose stream ends at
the opcode boundary stays in the registry while the session crashes. -/
theorem C1_opcode_read_failure_keeps_registration_witness :
    serverStep 0 [] (some [97]) ⟨[], [([97], 0)], []⟩ []
        = StepRes.crashed ⟨[], [([97], 0)], []⟩
      ∧ keys (stateOfRes (serverStep 0 [] (some [97]) ⟨[], [([97], 0)], []⟩ [])).people
          = keys [([97], 0)] :=
  C1_opcode_read_failure_keeps_registration 0 [] [97] ⟨[], [([97], 0)], []⟩ []
    (by decide)

/-- Counterexample for C2: with `"a"` ([97]) already registered, a Register
frame for `"a"` makes the server reply `accepted = false` and then, because
the returned value is falsy, break out of the loop and close the
connection — the session does NOT remain in `AwaitingUsername`. -/
theorem C2_duplicate_closes_connection :
    serverStep 1 [] none ⟨[], [([97], 0)], []⟩
        (int32Bytes 1 ++ send_str [97] ++ [])
      = StepRes.closed none ⟨[], [([97], 0)], [(1, Frame.bool false)]⟩ := by
  decide

/-- Claim C2 as amended: on a duplicate username the server replies
`accepted = false` and performs no registry or history mutation, but the
session then closes (the `else: break` branch); a retry needs a fresh
connection. -/
theorem C2_duplicate_rejected_no_mutation (wid : Nat) (ts u : PyStr)
    (st : ServerState) (rest : List Nat) (hdup : u ∈ keys st.people)
    (hlen : u.length < 2147483648) :
    serverStep wid ts none st (int32Bytes 1 ++ send_str u ++ rest)
      = StepRes.closed none
          { st with out := st.out ++ [(wid, Frame.bool false)] } :=
  serverStep_register_dup wid ts u st rest hdup hlen

/-- Witness for the amended C2 at a concrete duplicate registration. -/
theorem C2_duplicate_rejected_no_mutation_witness :
    serverStep 1 [] none ⟨[], [([97], 0)], []⟩
        (int32Bytes 1 ++ send_str [97] ++ [5])
      = StepRes.closed none ⟨[], [([97], 0)], [(1, Frame.bool false)]⟩ :=
  C2_duplicate_rejected_no_mutation 1 [] [97] ⟨[], [([97], 0)], []⟩ [5]
    (by decide) (by decide)

/-- Claim C3: the history is bounded by 10 — after any sequence of appends
its length is `min M 10`; an append at capacity drops exactly the single
oldest entry; and after more than ten appends the history is exactly the
last ten appended messages in insertion order. -/
theorem C3_bounded_history (ms : List (List PyStr)) :
    (historyAfter ms).length = min ms.length 10
      ∧ (∀ (h : List (List PyStr)) (m : List PyStr), h.length = 10 →
          add_to_recent_messages h m = h.drop 1 ++ [m])
      ∧ (10 < ms.length → historyAfter ms = ms.drop (ms.length - 10)) :=
  ⟨historyAfter_length ms,
   fun h m hh => by unfold add_to_recent_messages; rw [if_pos hh],
   fun _ => historyAfter_eq_drop ms⟩

/-- Witness for C3 on a concrete sequence of eleven appends. -/
theorem C3_bounded_history_witness :
    historyAfter [[[1]], [[2]], [[3]], [[4]], [[5]], [[6]], [[7]], [[8]],
        [[9]], [[10]], [[11]]]
      = [[[1]], [[2]], [[3]], [[4]], [[5]], [[6]], [[7]], [[8]],
          [[9]], [[10]], [[11]]].drop
          ([[[1]], [[2]], [[3]], [[4]], [[5]], [[6]], [[7]], [[8]],
            [[9]], [[10]], [[11]]].length - 10) :=
  (C3_bounded_history _).2.2 (by decide)

/-- Claim C4: a Send frame from a registered session stamps the timestamp,
appends the triple `[ts, u, body]` to the history, and writes that triple
as a StringList frame to every writer currently in the registry — the
sender's own writer included, since it is among them. -/
theorem C4_send_broadcast (wid : Nat) (ts u body : PyStr) (st : ServerState)
    (rest : List Nat) (hu : u ≠ []) (hb : body.length < 2147483648) :
    ∃ st2, serverStep wid ts (some u) st (int32Bytes 2 ++ send_str body ++ rest)
        = StepRes.cont (some u) st2 rest
      ∧ st2.messages = add_to_recent_messages st.messages [ts, u, body]
      ∧ st2.people = st.people
      ∧ st2.out = st.out
          ++ st.people.map (fun p => (p.2, Frame.strList [ts, u, body]))
      ∧ ∀ p ∈ st.people, (p.2, Frame.strList [ts, u, body]) ∈ st2.out := by
  refine ⟨_, serverStep_send wid ts u body st rest hu hb, rfl, rfl, rfl, ?_⟩
  intro p hp
  exact List.mem_append_right _ (List.mem_map.2 ⟨p, hp, rfl⟩)

/-- Witness for C4: user `"a"` sends `"hi"` with itself and `"b"`
registered; both writers receive the broadcast triple. -/
theorem C4_send_broadcast_witness :
    ∃ st2, serverStep 0 [116] (some [97]) ⟨[], [([97], 0), ([98], 1)], []⟩
        (int32Bytes 2 ++ send_str [104, 105] ++ [])
        = StepRes.cont (some [97]) st2 []
      ∧ st2.messages = add_to_recent_messages [] [[116], [97], [104, 105]]
      ∧ st2.people = [([97], 0), ([98], 1)]
      ∧ st2.out = []
          ++ [([97], 0), ([98], 1)].map
              (fun p => (p.2, Frame.strList [[116], [97], [104, 105]]))
      ∧ ∀ p ∈ [([97], 0), ([98], 1)],
          (p.2, Frame.strList [[116], [97], [104, 105]]) ∈ st2.out :=
  C4_send_broadcast 0 [116] [97] [104, 105] ⟨[], [([97], 0), ([98], 1)], []⟩
    [] (by decide) (by decide)

/-- Claim C5: a successful registration writes `Bool true` first and the
history snapshot second; when the history was built by `K` appends the
snapshot is exactly the last `min K 10` of them, i.e. all `K` in order when
`K ≤ 10`, and the most recent ten otherwise. -/
theorem C5_registration_snapshot (wid : Nat) (ts u : PyStr)
    (st : ServerState) (rest : List Nat) (ms : List (List PyStr))
    (hfresh : u ∉ keys st.people) (hlen : u.length < 2147483648)
    (hmsgs : st.messages = historyAfter ms) :
    (stateOfRes (serverStep wid ts none st
          (int32Bytes 1 ++ send_str u ++ rest))).out
        = st.out ++ [(wid, Frame.bool true),
            (wid, Frame.listOfLists (ms.drop (ms.length - 10)))]
      ∧ (ms.length ≤ 10 → ms.drop (ms.length - 10) = ms) := by
  constructor
  · rw [serverStep_register_fresh wid ts u st rest hfresh hlen]
    have hsnap : st.messages = ms.drop (ms.length - 10) := by
      rw [hmsgs, historyAfter_eq_drop]
    by_cases hu : u = [] <;> simp [hu, stateOfRes, regState, hsnap]
  · intro hle
    have h0 : ms.length - 10 = 0 := by omega
    rw [h0, List.drop_zero]

/-- Witness for C5: a client registering as `"b"` after two messages have
been appended receives `Bool true` then exactly those two messages. -/
theorem C5_registration_snapshot_witness :
    (stateOfRes (serverStep 1 [] none
          ⟨historyAfter [[[1]], [[2]]], [([97], 0)], []⟩
          (int32Bytes 1 ++ send_str [98] ++ []))).out
        = [] ++ [(1, Frame.bool true),
            (1, Frame.listOfLists ([[[1]], [[2]]].drop
              ([[[1]], [[2]]].length - 10)))]
      ∧ ([[[1]], [[2]]] : List (List PyStr)).drop
          ([[[1]], [[2]]].length - 10) = [[[1]], [[2]]] :=
  ⟨(C5_registration_snapshot 1 [] [98]
      ⟨historyAfter [[[1]], [[2]]], [([97], 0)], []⟩ [] [[[1]], [[2]]]
      (by decide) (by decide) rfl).1,
   (C5_registration_snapshot 1 [] [98]
      ⟨historyAfter [[[1]], [[2]]], [([97], 0)], []⟩ [] [[[1]], [[2]]]
      (by decide) (by decide) rfl).2 (by decide)⟩

/-- Claim C6: the wire codec round-trips — decoding the encoding of any
string (including the empty string) or any list-of-lists-of-strings
structure returns it exactly, strings being framed as a little-endian
`Int32` byte length followed by that many bytes.  The length bounds are
those of the `Int32` length field itself (`struct.pack('<i', …)`). -/
theorem C6_codec_roundtrip :
    (∀ (x : PyStr) (rest : List Nat), x.length < 2147483648 →
        recv_str (send_str x ++ rest) = some (x, rest))
      ∧ (∀ (ll : List (List PyStr)) (rest : List Nat),
          (∀ l ∈ ll, (∀ w ∈ l, w.length < 2147483648)
              ∧ l.length < 2147483648) →
          ll.length < 2147483648 →
          recv_list_of_lists (send_list_of_lists ll ++ rest)
            = some (ll, rest)) :=
  ⟨fun x rest h => recv_str_send_str x h rest,
   fun ll rest hw hl => recv_list_of_lists_send_list_of_lists ll hw hl rest⟩

/-- Witness for C6: the empty string and a small two-element structure
containing an empty string both round-trip. -/
theorem C6_codec_roundtrip_witness :
    recv_str (send_str [] ++ []) = some ([], [])
      ∧ recv_list_of_lists (send_list_of_lists [[[104], []], []] ++ [])
          = some ([[[104], []], []], []) :=
  ⟨C6_codec_roundtrip.1 [] [] (by decide),
   C6_codec_roundtrip.2 [[[104], []], []] [] (by decide) (by decide)⟩

/-- Counterexample for C7: with `"a"` ([97]) registered, opcode 5 is
silently ignored — the loop continues with the session still registered
and the state untouched, instead of terminating the connection. -/
theorem C7_unknown_opcode_ignored_after_registration :
    serverStep 0 [] (some [97]) ⟨[], [([97], 0)], []⟩ [5, 0, 0, 0]
      = StepRes.cont (some [97]) ⟨[], [([97], 0)], []⟩ [] := by
  decide

/-- Claim C7 as amended: before a username has been accepted, any opcode
other than 1 terminates the connection with no registry effects; after
registration, any opcode other than 2 (1 and unrecognized values alike) is
silently ignored and the loop continues in the registered state. -/
theorem C7_unrecognized_opcode (wid : Nat) (ts : PyStr) (st : ServerState)
    (d : Nat) (rest : List Nat) (hlt : d < 2147483648) :
    (∀ v, truthy v = false → d ≠ 1 →
        serverStep wid ts v st (int32Bytes d ++ rest) = StepRes.closed v st)
      ∧ (∀ u : PyStr, u ≠ [] → d ≠ 2 →
          serverStep wid ts (some u) st (int32Bytes d ++ rest)
            = StepRes.cont (some u) st rest) :=
  ⟨fun v hv hd => serverStep_notRegistered_close wid ts v st d rest hv hd hlt,
   fun u hu hd => serverStep_registered_ignore wid ts u st d rest hu hd hlt⟩

/-- Witness for C7 as amended, at opcode 5 before and after registration. -/
theorem C7_unrecognized_opcode_witness :
    serverStep 0 [] none ⟨[], [], []⟩ (int32Bytes 5 ++ [])
        = StepRes.closed none ⟨[], [], []⟩
      ∧ serverStep 0 [] (some [97]) ⟨[], [([97], 0)], []⟩ (int32Bytes 5 ++ [])
          = StepRes.cont (some [97]) ⟨[], [([97], 0)], []⟩ [] :=
  ⟨(C7_unrecognized_opcode 0 [] ⟨[], [], []⟩ 5 [] (by decide)).1 none rfl
      (by decide),
   (C7_unrecognized_opcode 0 [] ⟨[], [([97], 0)], []⟩ 5 [] (by decide)).2 [97]
      (by decide) (by decide)⟩

/-- Counterexample for C8: Python `del` on an absent key raises `KeyError`
(`none`), so the removal used by `server_receive_messages` is not safe on
an already-absent key. -/
theorem C8_del_absent_raises :
    pyDictDel ([] : List (PyStr × Nat)) [97] = none := by
  decide

/-- Claim C8 as amended: the removal deletes the entry when the key is
present (leaving no entry under that key), but a second call in a row
raises `KeyError` instead of being a no-op — it is not idempotent.  In the
program it is only ever invoked with the key present. -/
theorem C8_unregister_removes_but_not_idempotent
    (d : List (PyStr × Nat)) (k : PyStr) (hk : k ∈ keys d) :
    pyDictDel d k = some (d.filter (fun p => decide (p.1 ≠ k)))
      ∧ k ∉ keys (d.filter (fun p => decide (p.1 ≠ k)))
      ∧ pyDictDel (d.filter (fun p => decide (p.1 ≠ k))) k = none := by
  have habsent : k ∉ keys (d.filter (fun p => decide (p.1 ≠ k))) := by
    intro hmem
    simp only [keys, List.mem_map] at hmem
    obtain ⟨p, hp, hpk⟩ := hmem
    have hne := (List.mem_filter.1 hp).2
    simp only [decide_eq_true_eq] at hne
    exact hne hpk
  refine ⟨by unfold pyDictDel; rw [if_pos hk], habsent, ?_⟩
  unfold pyDictDel
  rw [if_neg habsent]

/-- Witness for the amended C8 on a concrete one-entry registry. -/
theorem C8_unregister_removes_but_not_idempotent_witness :
    pyDictDel [([97], 0)] [97]
        = some ([([97], 0)].filter (fun p => decide (p.1 ≠ [97])))
      ∧ [97] ∉ keys ([([97], 0)].filter (fun p => decide (p.1 ≠ [97])))
      ∧ pyDictDel ([([97], 0)].filter (fun p => decide (p.1 ≠ [97]))) [97]
          = none :=
  C8_unregister_removes_but_not_idempotent [([97], 0)] [97] (by decide)

/-- Claim C9: an empty message body is a valid chat message — the guard
`if not message and message != ''` does not fire on `''`, so the server
appends `[ts, u, '']` to the history and broadcasts it to every registered
writer, and the session continues (is not terminated). -/
theorem C9_empty_body_valid (wid : Nat) (ts u : PyStr) (st : ServerState)
    (rest : List Nat) (hu : u ≠ []) :
    serverStep wid ts (some u) st (int32Bytes 2 ++ send_str [] ++ rest)
      = StepRes.cont (some u)
          ⟨add_to_recent_messages st.messages [ts, u, []], st.people,
            st.out ++ st.people.map (fun p => (p.2, Frame.strList [ts, u, []]))⟩
          rest :=
  serverStep_send wid ts u [] st rest hu (by decide)

/-- Witness for C9: `"a"` sends an empty body and the session continues
with the empty-bodied triple appended and broadcast. -/
theorem C9_empty_body_valid_witness :
    serverStep 0 [116] (some [97]) ⟨[], [([97], 0)], []⟩
        (int32Bytes 2 ++ send_str [] ++ [])
      = StepRes.cont (some [97])
          ⟨add_to_recent_messages [] [[116], [97], []], [([97], 0)],
            [] ++ [([97], 0)].map
              (fun p => (p.2, Frame.strList [[116], [97], []]))⟩
          [] :=
  C9_empty_body_valid 0 [116] [97] ⟨[], [([97], 0)], []⟩ [] (by decide)

/-- Claim C10: registering the empty username is accepted (`Bool true` and
the snapshot are sent, the key is inserted) yet the session immediately
closes because `''` is falsy; once inserted, the empty key survives every
later loop iteration of every session (it is never unregistered, since
`del` only ever runs for a truthy username), and every later attempt to
register `''` is rejected with `accepted = false`. -/
theorem C10_empty_username_trap :
    (∀ (wid : Nat) (ts : PyStr) (st : ServerState) (rest : List Nat),
        ([] : PyStr) ∉ keys st.people →
        serverStep wid ts none st (int32Bytes 1 ++ send_str [] ++ rest)
          = StepRes.closed (some [])
              ⟨st.messages, st.people ++ [([], wid)],
                st.out ++ [(wid, Frame.bool true),
                  (wid, Frame.listOfLists st.messages)]⟩)
      ∧ (∀ (wid : Nat) (ts : PyStr) (st : ServerState) (rest : List Nat),
          ([] : PyStr) ∈ keys st.people →
          serverStep wid ts none st (int32Bytes 1 ++ send_str [] ++ rest)
            = StepRes.closed none
                { st with out := st.out ++ [(wid, Frame.bool false)] })
      ∧ (∀ (wid : Nat) (ts : PyStr) (v : Option PyStr) (st : ServerState)
            (s : List Nat),
          ([] : PyStr) ∈ keys st.people →
          ([] : PyStr) ∈ keys (stateOfRes (serverStep wid ts v st s)).people) :=
  ⟨fun wid ts st rest hfresh => by
      rw [serverStep_register_fresh wid ts [] st rest hfresh (by decide),
        if_pos rfl]
      rfl,
   fun wid ts st rest hdup =>
      serverStep_register_dup wid ts [] st rest hdup (by decide),
   fun wid ts v st s hk => serverStep_preserves_emptyKey wid ts v st s hk⟩

/-- Witness for C10: the empty username registers then the session closes;
from a registry holding the empty key, a fresh empty registration is
rejected and a crash step still keeps the key. -/
theorem C10_empty_username_trap_witness :
    serverStep 3 [] none ⟨[], [], []⟩ (int32Bytes 1 ++ send_str [] ++ [])
        = StepRes.closed (some [])
            ⟨[], [] ++ [([], 3)],
              [] ++ [(3, Frame.bool true), (3, Frame.listOfLists [])]⟩
      ∧ serverStep 4 [] none ⟨[], [([], 3)], []⟩
            (int32Bytes 1 ++ send_str [] ++ [])
          = StepRes.closed none ⟨[], [([], 3)], [(4, Frame.bool false)]⟩
      ∧ ([] : PyStr) ∈ keys
          (stateOfRes (serverStep 4 [] none ⟨[], [([], 3)], []⟩ [])).people :=
  ⟨C10_empty_username_trap.1 3 [] ⟨[], [], []⟩ [] (by decide),
   C10_empty_username_trap.2.1 4 [] ⟨[], [([], 3)], []⟩ [] (by decide),
   C10_empty_username_trap.2.2 4 [] none ⟨[], [([], 3)], []⟩ [] (by decide)⟩
